import Mathlib

/-!
Verification of the wad2image map-rendering engine (src/bin/wad2image.py).

The Python source is shallowly embedded below.  Conventions used throughout:

* Python floats are modelled as rationals (`ℚ`); the source only performs
  field arithmetic and comparisons on them, and every claim checked here is
  about values where that model is exact.
* Python `int(x)` (truncation toward zero) is `py_int`; `x % m` on floats is
  `pymod` (result has the sign of the divisor, as in Python).
* Python dicts used as keyed caches are modelled as functions into `Option`;
  `map_to_index`, which is also iterated in insertion order, is modelled as an
  association list.
* The filesystem touched by the program is a partial map from path strings to
  file data; PIL images are an opaque type parameter `Img`, and a saved file
  holds either one image or a multi-frame animation.
* External collaborators (PIL resize, trigonometric rotation, the stdlib
  pseudo-random generator, the colour-composite creator when only the GIF
  path is exercised) are passed in as explicit function parameters; every
  operation belonging to the repository itself is translated from the source.
-/

namespace Wad2Image

/-- Python `int()` on a float value: truncation toward zero. -/
def py_int (q : ℚ) : ℤ := if q < 0 then ⌈q⌉ else ⌊q⌋

/-- Python `x % m` for floats with positive modulus `m`. -/
def pymod (x m : ℚ) : ℚ := x - m * ⌊x / m⌋

/-- Helper for `path.rfind(".")`: split a character list at its last dot,
returning the part before the last dot and the part starting at the dot, or
`none` when there is no dot. -/
def split_last_dot : List Char → Option (List Char × List Char)
  | [] => none
  | c :: cs =>
    match split_last_dot cs with
    | some (a, b) => some (c :: a, b)
    | none => if c = '.' then some ([], c :: cs) else none

/-- Embedding of `add_index` (wad2image.py lines 69-77): insert `-index`
before the extension, or append it when the path has no dot. -/
def add_index (path : String) (index : Nat) : String :=
  match split_last_dot path.data with
  | none => path ++ "-" ++ toString index
  | some (a, b) => String.mk a ++ "-" ++ toString index ++ String.mk b

/-- Embedding of `get_gif_path` (lines 739-746): replace everything from the
last dot on with `.gif`, or append `.gif` when the path has no dot. -/
def get_gif_path (path : String) : String :=
  match split_last_dot path.data with
  | none => path ++ ".gif"
  | some (a, _) => String.mk a ++ ".gif"

/-- Embedding of `flip_and_rotate` (lines 664-688).  The flip negates x,
then the four cardinal rotations use closed-form coordinate swaps; any other
angle falls through to the external trigonometric rotation `trig` (the
floating-point `math.cos`/`math.sin` branch of the source). -/
def flip_and_rotate (trig : ℚ → ℚ × ℚ → ℚ × ℚ) (flip : Bool) (rotation : ℚ)
    (p : ℚ × ℚ) : ℚ × ℚ :=
  let r := pymod rotation 360
  let x := if flip then -p.1 else p.1
  let y := p.2
  if r = 0 then (x, y)
  else if r = 90 then (y, -x)
  else if r = 180 then (-x, -y)
  else if r = 270 then (-y, x)
  else trig r (x, y)

theorem pymod_self_lt (x m : ℚ) (h0 : 0 ≤ x) (h1 : x < m) : pymod x m = x := by
  have hm : 0 < m := lt_of_le_of_lt h0 h1
  have hdiv0 : 0 ≤ x / m := div_nonneg h0 (le_of_lt hm)
  have hdiv1 : x / m < 1 := (div_lt_one hm).mpr h1
  have : ⌊x / m⌋ = 0 := by
    rw [Int.floor_eq_zero_iff]
    constructor <;> simp_all
  simp [pymod, this]

/-- C8: with flip disabled, the 90 degree rotation applied four times is the
identity on integer points (the cardinal rotations are exact coordinate
swaps), and the 0 degree rotation is the identity on every point. -/
theorem flip_and_rotate_cardinal (trig : ℚ → ℚ × ℚ → ℚ × ℚ) :
    (∀ x y : ℤ,
      flip_and_rotate trig false 90 (flip_and_rotate trig false 90
        (flip_and_rotate trig false 90
          (flip_and_rotate trig false 90 ((x : ℚ), (y : ℚ))))) = ((x : ℚ), (y : ℚ)))
    ∧ ∀ p : ℚ × ℚ, flip_and_rotate trig false 0 p = p := by
  have h90 : pymod 90 360 = 90 := pymod_self_lt 90 360 (by norm_num) (by norm_num)
  have h0 : pymod 0 360 = 0 := pymod_self_lt 0 360 (by norm_num) (by norm_num)
  constructor
  · intro x y
    simp [flip_and_rotate, h90]
  · intro p
    simp [flip_and_rotate, h0]

/-- Contents of a file written by the program: one raster image, or a
multi-frame animation (`create_gif_image` writes the frame list it was
given; a frame read back from a missing path is `none`). -/
inductive FileData (Img : Type) where
  | img (i : Img)
  | anim (frames : List (Option Img))
deriving DecidableEq

/-- Mutable run state touched by the revision reconciler: the filesystem, the
`created_paths` and `inter_paths` sets, and `map_to_index` (an insertion
ordered association list, like a Python dict iterated with `.keys()`). -/
structure RunState (Img : Type) where
  fs : String → Option (FileData Img)
  created : String → Bool
  inter : String → Bool
  mti : List (String × Nat × String)

/-- Lookup in `map_to_index` (`name in map_to_index` / `map_to_index[name]`). -/
def assocGet (l : List (String × Nat × String)) (k : String) : Option (Nat × String) :=
  match l with
  | [] => none
  | (k', v) :: rest => if k' = k then some v else assocGet rest k

/-- Assignment `map_to_index[name] = v`: update in place, or append as the
newest key, preserving dict insertion order. -/
def assocSet (l : List (String × Nat × String)) (k : String) (v : Nat × String) :
    List (String × Nat × String) :=
  match l with
  | [] => [(k, v)]
  | (k', v') :: rest => if k' = k then (k', v) :: rest else (k', v') :: assocSet rest k v

/-- Embedding of `remove_file` (lines 1138-1143): delete the file if present,
and drop the path from `created_paths`. -/
def remove_file (path : String) (s : RunState Img) : RunState Img :=
  { s with fs := fun q => if q = path then none else s.fs q,
           created := fun q => if q = path then false else s.created q }

/-- Embedding of `rename_file` (lines 1146-1153): delete the destination if
present, rename, drop the old path from `created_paths` and add the new one.
(`os.rename` on a missing `old_path`, or with `old_path = new_path`, raises;
the program only renames files it just wrote, with distinct paths.) -/
def rename_file (old_path new_path : String) (s : RunState Img) : RunState Img :=
  { s with
    fs := fun q => if q = new_path then s.fs old_path
                   else if q = old_path then none else s.fs q,
    created := fun q => if q = new_path then true
                        else if q = old_path then false else s.created q }

/-- Embedding of `im.save(new_path, ...)` followed by
`created_paths.add(new_path)` (draw_map lines 503-505). -/
def save_file (path : String) (d : FileData Img) (s : RunState Img) : RunState Img :=
  { s with fs := fun q => if q = path then some d else s.fs q,
           created := fun q => if q = path then true else s.created q }

/-- Embedding of the revision-reconciliation tail of `draw_map`
(lines 485-522): choose an output path from the per-map index, save the
frame, then discard it again (undoing the first rename when it was revision
2) if it is byte-identical to the immediately prior revision. -/
def draw_map_save [DecidableEq Img] (dup_images : String) (keep_identical_images : Bool)
    (name path : String) (im : Img) (s : RunState Img) : RunState Img :=
  let step : Option String × Nat × String × RunState Img :=
    match assocGet s.mti name with
    | some (index0, _) =>
      if dup_images = "overwrite" then (none, 1, path, s)
      else
        let old_path := add_index path index0
        let s1 := if index0 = 1 then rename_file path old_path s else s
        (some old_path, index0 + 1, add_index path (index0 + 1), s1)
    | none => (none, 1, path, s)
  let old_path? := step.1
  let index := step.2.1
  let new_path := step.2.2.1
  let s2 := save_file new_path (FileData.img im) step.2.2.2
  match old_path? with
  | some old_path =>
    if keep_identical_images = false ∧ s2.fs old_path = s2.fs new_path then
      let s3 := remove_file new_path s2
      if index = 2 then rename_file old_path path s3 else s3
    else { s2 with mti := assocSet s2.mti name (index, path) }
  | none => { s2 with mti := assocSet s2.mti name (index, path) }

theorem assocGet_assocSet_self (l : List (String × Nat × String)) (k : String)
    (v : Nat × String) : assocGet (assocSet l k v) k = some v := by
  induction l with
  | nil => simp [assocGet, assocSet]
  | cons h t ih =>
    obtain ⟨k', v'⟩ := h
    by_cases hk : k' = k <;> simp [assocGet, assocSet, hk, ih]

theorem draw_map_save_first [DecidableEq Img] (name path : String) (c : Img)
    (s : RunState Img) (hm : assocGet s.mti name = none) :
    (∀ q, (draw_map_save "index" false name path c s).fs q =
      if q = path then some (FileData.img c) else s.fs q)
    ∧ (∀ q, (draw_map_save "index" false name path c s).created q =
      if q = path then true else s.created q)
    ∧ (draw_map_save "index" false name path c s).mti = assocSet s.mti name (1, path) := by
  refine ⟨fun q => ?_, fun q => ?_, ?_⟩ <;>
    simp [draw_map_save, hm, save_file]

theorem draw_map_save_dup [DecidableEq Img] (name path : String) (c : Img)
    (s : RunState Img) (hm : assocGet s.mti name = some (1, path))
    (hfs : s.fs path = some (FileData.img c))
    (h1 : path ≠ add_index path 1) (h2 : path ≠ add_index path 2)
    (h12 : add_index path 1 ≠ add_index path 2) :
    (draw_map_save "index" false name path c s).fs path = some (FileData.img c)
    ∧ (draw_map_save "index" false name path c s).fs (add_index path 1) = none
    ∧ (draw_map_save "index" false name path c s).fs (add_index path 2) = none
    ∧ (draw_map_save "index" false name path c s).created path = true
    ∧ (draw_map_save "index" false name path c s).created (add_index path 1) = false
    ∧ (draw_map_save "index" false name path c s).created (add_index path 2) = false
    ∧ (draw_map_save "index" false name path c s).mti = s.mti := by
  have hov : ¬(("index" : String) = "overwrite") := by decide
  have h1s : ¬(add_index path 1 = path) := fun h => h1 h.symm
  have h2s : ¬(add_index path 2 = path) := fun h => h2 h.symm
  have h12s : ¬(add_index path 2 = add_index path 1) := fun h => h12 h.symm
  refine ⟨?_, ?_, ?_, ?_, ?_, ?_, ?_⟩ <;>
    simp [draw_map_save, hm, hov, save_file, remove_file, rename_file,
      h1, h2, h12, h1s, h2s, h12s, hfs]

/-- C1: with the `index` policy and `keep_identical_images` unset, saving the
same map frame twice (byte-identical contents) leaves exactly one file, at
the unsuffixed canonical path, no `-1`/`-2` files, and the per-map index
still at 1: the second save goes to `-2`, is byte-compared with the prior
revision, deleted on equality, and the rename of the first file to `-1` is
undone. -/
theorem index_policy_dup_suppression [DecidableEq Img] (name path : String)
    (c : Img) (s : RunState Img)
    (hm : assocGet s.mti name = none)
    (h1 : path ≠ add_index path 1) (h2 : path ≠ add_index path 2)
    (h12 : add_index path 1 ≠ add_index path 2) :
    (draw_map_save "index" false name path c
        (draw_map_save "index" false name path c s)).fs path = some (FileData.img c)
    ∧ (draw_map_save "index" false name path c
        (draw_map_save "index" false name path c s)).fs (add_index path 1) = none
    ∧ (draw_map_save "index" false name path c
        (draw_map_save "index" false name path c s)).fs (add_index path 2) = none
    ∧ (draw_map_save "index" false name path c
        (draw_map_save "index" false name path c s)).created path = true
    ∧ (draw_map_save "index" false name path c
        (draw_map_save "index" false name path c s)).created (add_index path 1) = false
    ∧ (draw_map_save "index" false name path c
        (draw_map_save "index" false name path c s)).created (add_index path 2) = false
    ∧ assocGet (draw_map_save "index" false name path c
        (draw_map_save "index" false name path c s)).mti name = some (1, path) := by
  obtain ⟨hfs1, _, hmti1⟩ := draw_map_save_first name path c s hm
  have hm1 : assocGet (draw_map_save "index" false name path c s).mti name = some (1, path) := by
    rw [hmti1]; exact assocGet_assocSet_self s.mti name (1, path)
  have hfs1p : (draw_map_save "index" false name path c s).fs path = some (FileData.img c) := by
    rw [hfs1 path]; simp
  obtain ⟨a, b, d, e, f, g, h⟩ :=
    draw_map_save_dup name path c (draw_map_save "index" false name path c s)
      hm1 hfs1p h1 h2 h12
  exact ⟨a, b, d, e, f, g, by rw [h]; exact hm1⟩

/-- Witness for C1 at a concrete run: an empty state, map name `E1M1`,
canonical path `e1m1.png`. -/
theorem index_policy_dup_suppression_witness :
    (draw_map_save "index" false "E1M1" "e1m1.png" (0 : Nat)
        (draw_map_save "index" false "E1M1" "e1m1.png" 0
          ⟨fun _ => none, fun _ => false, fun _ => false, []⟩)).fs "e1m1.png"
      = some (FileData.img 0)
    ∧ (draw_map_save "index" false "E1M1" "e1m1.png" (0 : Nat)
        (draw_map_save "index" false "E1M1" "e1m1.png" 0
          ⟨fun _ => none, fun _ => false, fun _ => false, []⟩)).fs "e1m1-1.png" = none
    ∧ (draw_map_save "index" false "E1M1" "e1m1.png" (0 : Nat)
        (draw_map_save "index" false "E1M1" "e1m1.png" 0
          ⟨fun _ => none, fun _ => false, fun _ => false, []⟩)).fs "e1m1-2.png" = none := by
  have h := index_policy_dup_suppression "E1M1" "e1m1.png" 0
    (⟨fun _ => none, fun _ => false, fun _ => false, []⟩ : RunState Nat)
    (by rfl) (by decide) (by decide) (by decide)
  have e1 : add_index "e1m1.png" 1 = "e1m1-1.png" := by rfl
  have e2 : add_index "e1m1.png" 2 = "e1m1-2.png" := by rfl
  refine ⟨h.1, ?_, ?_⟩
  · rw [← e1]; exact h.2.1
  · rw [← e2]; exact h.2.2.1

/-- C10: `created_paths` tracks exactly the outputs that still exist under
their current names.  `remove_file p` leaves `p` off disk and out of the set;
`rename_file old new` moves the file, drops `old` from the set and adds
`new`; and each of `remove_file`, `rename_file` (on an existing source) and
`save_file` preserves the invariant that every member of the set is a path
that exists on disk. -/
theorem created_paths_tracking [DecidableEq Img] (s : RunState Img)
    (p old_path new_path : String) (d : FileData Img)
    (hne : old_path ≠ new_path)
    (hex : (s.fs old_path).isSome)
    (hinv : ∀ q, s.created q = true → (s.fs q).isSome) :
    (remove_file p s).created p = false
    ∧ (remove_file p s).fs p = none
    ∧ (rename_file old_path new_path s).created old_path = false
    ∧ (rename_file old_path new_path s).created new_path = true
    ∧ (rename_file old_path new_path s).fs old_path = none
    ∧ (rename_file old_path new_path s).fs new_path = s.fs old_path
    ∧ (∀ q, (remove_file p s).created q = true → ((remove_file p s).fs q).isSome)
    ∧ (∀ q, (rename_file old_path new_path s).created q = true →
        ((rename_file old_path new_path s).fs q).isSome)
    ∧ (∀ q, (save_file p d s).created q = true → ((save_file p d s).fs q).isSome) := by
  have hnes : ¬(old_path = new_path) := hne
  refine ⟨by simp [remove_file], by simp [remove_file], ?_, ?_, ?_, ?_, ?_, ?_, ?_⟩
  · simp [rename_file, hnes]
  · simp [rename_file]
  · simp [rename_file, hnes]
  · simp [rename_file]
  · intro q hq
    by_cases hqp : q = p <;> simp_all [remove_file]
  · intro q hq
    by_cases hqn : q = new_path
    · simpa [rename_file, hqn] using hex
    · by_cases hqo : q = old_path <;> simp_all [rename_file]
  · intro q hq
    by_cases hqp : q = p <;> simp_all [save_file]

/-- Witness for C10 at a concrete state holding one file `a.png`. -/
theorem created_paths_tracking_witness :
    (rename_file "a.png" "b.png"
      (⟨fun q => if q = "a.png" then some (FileData.img 0) else none,
        fun q => q = "a.png", fun _ => false, []⟩ : RunState Nat)).created "b.png" = true :=
  (created_paths_tracking
    (⟨fun q => if q = "a.png" then some (FileData.img 0) else none,
      fun q => q = "a.png", fun _ => false, []⟩ : RunState Nat)
    "c.png" "a.png" "b.png" (FileData.img 1)
    (by decide) (by simp) (fun q hq => by by_cases h : q = "a.png" <;> simp_all)).2.2.2.1

/-- Embedding of `PIL.Image.open(new_path)` against the modelled filesystem:
the image stored at the path, if any. -/
def open_image (s : RunState Img) (path : String) : Option Img :=
  match s.fs path with
  | some (FileData.img i) => some i
  | _ => none

/-- Embedding of `create_gif_image` (lines 171-178): write one multi-frame
image holding exactly the frame list it was given at the canonical path's
name with a `.gif` extension, and return that path. -/
def create_gif_image (path : String) (images : List (Option Img))
    (s : RunState Img) : String × RunState Img :=
  let gif_path := get_gif_path path
  (gif_path,
    { s with fs := fun q => if q = gif_path then some (FileData.anim images) else s.fs q })

/-- Test that the first character list is an initial segment of the second
(Python `str.startswith`, by code points). -/
def leads_with : List Char → List Char → Bool
  | [], _ => true
  | _ :: _, [] => false
  | p :: ps, c :: cs => p = c && leads_with ps cs

/-- Python `s.startswith(t)`. -/
def starts_with (s t : String) : Bool := leads_with t.data s.data

/-- Python `s.endswith(t)`. -/
def ends_with (s t : String) : Bool := leads_with t.data.reverse s.data.reverse

/-- Python string `<=`: code-point lexicographic order. -/
def chars_le : List Char → List Char → Bool
  | [], _ => true
  | _ :: _, [] => false
  | a :: as, b :: bs => if a = b then chars_le as bs else decide (a < b)

/-- Python `a <= b` on strings. -/
def str_le (a b : String) : Bool := chars_le a.data b.data

/-- Stable ascending insertion used to model Python's `list.sort()` on map
names. -/
def insert_le (x : String) : List String → List String
  | [] => [x]
  | y :: ys => if str_le x y then x :: y :: ys else y :: insert_le x ys

/-- Model of `maps.sort()`: stable ascending sort. -/
def sort_strings (l : List String) : List String := l.foldr insert_le []

/-- Embedding of one iteration of the per-map loop of `create_diff_images`
(lines 194-215).  The frame list `acc.1` is threaded through from the
previous iteration because the source initialises `images = []` once,
before the loop over maps (line 193), while `new_paths` is re-initialised
inside the loop. -/
def create_one_diff
    (create_diff_image : String → List (Option Img) → RunState Img → String × RunState Img)
    (dup_images : String) (acc : List (Option Img) × RunState Img) (m : String) :
    List (Option Img) × RunState Img :=
  match assocGet acc.2.mti m with
  | none => acc
  | some (index, path) =>
    let new_paths := (List.range index).map (fun i => add_index path (i + 1))
    let images := acc.1 ++ new_paths.map (fun p => open_image acc.2 p)
    let r := create_diff_image path images acc.2
    let s1 := { r.2 with created := fun q => if q = r.1 then true else r.2.created q }
    let s2 := if ends_with dup_images "keep"
      then { s1 with inter := fun q => if q ∈ new_paths then true else s1.inter q }
      else new_paths.foldl (fun st pp => remove_file pp st) s1
    (images, s2)

/-- Embedding of `create_diff_images` (lines 181-215): for the gif family of
policies build the artifacts with `create_gif_image`; for the colors family
use the supplied composite creator; otherwise do nothing.  Maps with more
than one revision are processed in sorted name order. -/
def create_diff_images
    (colors_create : String → List (Option Img) → RunState Img → String × RunState Img)
    (dup_images : String) (s : RunState Img) : RunState Img :=
  if starts_with dup_images "gif" ∨ starts_with dup_images "colors" then
    let create_diff_image :=
      if starts_with dup_images "gif" then create_gif_image else colors_create
    let maps := sort_strings ((s.mti.filter (fun x => 1 < x.2.1)).map (fun x => x.1))
    (maps.foldl (create_one_diff create_diff_image dup_images) ([], s)).2
  else s

/-- C2 (failing evaluation): with two map identities at two revisions each,
end-of-run GIF synthesis writes a correct 2-frame image for the first map
name in sorted order, but the second map's image carries the first map's
frames as well, 4 frames instead of that map's revision count 2: the frame
accumulator is initialised outside the per-map loop. -/
theorem create_diff_images_second_map_frames :
    (create_diff_images (fun path _ s => (path, s)) "gif"
      (⟨fun q =>
          if q = "a-1.png" then some (FileData.img 1)
          else if q = "a-2.png" then some (FileData.img 2)
          else if q = "b-1.png" then some (FileData.img 3)
          else if q = "b-2.png" then some (FileData.img 4)
          else none,
        fun _ => false, fun _ => false,
        [("E1M1", (2, "a.png")), ("E1M2", (2, "b.png"))]⟩ : RunState Nat)).fs "a.gif"
      = some (FileData.anim [some 1, some 2])
    ∧ (create_diff_images (fun path _ s => (path, s)) "gif"
      (⟨fun q =>
          if q = "a-1.png" then some (FileData.img 1)
          else if q = "a-2.png" then some (FileData.img 2)
          else if q = "b-1.png" then some (FileData.img 3)
          else if q = "b-2.png" then some (FileData.img 4)
          else none,
        fun _ => false, fun _ => false,
        [("E1M1", (2, "a.png")), ("E1M2", (2, "b.png"))]⟩ : RunState Nat)).fs "b.gif"
      = some (FileData.anim [some 1, some 2, some 3, some 4]) := by
  constructor <;> decide

/-- Styling options consumed by the sizing computation of `draw_map`. -/
structure SizeArgs where
  flip : Bool
  rotation : ℚ
  width : Option ℤ
  height : Option ℤ
  scale : Option ℚ
  margin : ℤ
  offset_x : ℤ
  offset_y : ℤ

/-- Projection parameters stored per map name in `map_to_size`: scale, canvas
dimensions, pixel bounds and Doom-space bounds. -/
structure SizeInfo where
  scale : ℚ
  image_width : ℤ
  image_height : ℤ
  pxmin : ℤ
  pxmax : ℤ
  pymin : ℤ
  pymax : ℤ
  vxmin : ℚ
  vxmax : ℚ
  vymin : ℚ
  vymax : ℚ
deriving DecidableEq

/-- Embedding of the sizing block of `draw_map` (lines 240-318): transform
the vertices, compute Doom-space bounds, derive the scale from the requested
width/height (the smaller of the two implied scales when both are given,
`float("inf")` modelled as `none`) or take it from the arguments, derive the
tight canvas size from content bounds plus margins, center along the slack
dimension when both dimensions were given, and apply the pixel offsets.
`A.scale.getD 0` models the `parse_args` invariant that `args.scale` is set
whenever neither dimension is (a width of 1024 is defaulted otherwise). -/
def compute_size (trig : ℚ → ℚ × ℚ → ℚ × ℚ) (A : SizeArgs)
    (vertexes : List (ℚ × ℚ)) : SizeInfo :=
  let flip_or_rotation := A.flip || decide (A.rotation ≠ 0)
  let tv := fun (v : ℚ × ℚ) =>
    if flip_or_rotation then flip_and_rotate trig A.flip A.rotation v else v
  let vxmin := vertexes.foldl (fun acc v => min acc (tv v).1) 32767
  let vxmax := vertexes.foldl (fun acc v => max acc (tv v).1) (-32768)
  let vymin := vertexes.foldl (fun acc v => min acc (tv v).2) 32767
  let vymax := vertexes.foldl (fun acc v => max acc (tv v).2) (-32768)
  let dims := (if A.width.isSome then 1 else 0) + (if A.height.isSome then 1 else 0)
  let scale_x : Option ℚ :=
    A.width.map (fun w => ((w : ℚ) - 2 * A.margin) / (vxmax - vxmin))
  let scale_y : Option ℚ :=
    A.height.map (fun hh => ((hh : ℚ) - 2 * A.margin) / (vymax - vymin))
  let scale : ℚ :=
    if A.width.isSome ∨ A.height.isSome then
      match scale_x, scale_y with
      | some sx, some sy => min sx sy
      | some sx, none => sx
      | none, some sy => sy
      | none, none => 0
    else A.scale.getD 0
  let width_tight0 : Option ℤ :=
    if (A.width.isSome ∨ A.height.isSome) ∧ scale_x = some scale then A.width else none
  let height_tight0 : Option ℤ :=
    if (A.width.isSome ∨ A.height.isSome) ∧ scale_y = some scale then A.height else none
  let pxmin : ℤ := A.margin
  let pxmax : ℤ := py_int (scale * (vxmax - vxmin) + 1/2) + A.margin
  let pymin : ℤ := A.margin
  let pymax : ℤ := py_int (scale * (vymax - vymin) + 1/2) + A.margin
  let image_width_tight : ℤ := width_tight0.getD ((pxmax - pxmin) + 2 * A.margin)
  let image_height_tight : ℤ := height_tight0.getD ((pymax - pymin) + 2 * A.margin)
  let centered : ℤ × ℤ × ℤ × ℤ × ℤ × ℤ :=
    if dims = 2 then
      let sx := scale_x.getD 0
      let sy := scale_y.getD 0
      if sx > sy then
        let delta := py_int (((A.width.getD 0 : ℚ) - (image_width_tight : ℚ)) / 2)
        (pxmin + delta, pxmax + delta, pymin, pymax, A.width.getD 0, A.height.getD 0)
      else if sx < sy then
        let delta := py_int (((A.height.getD 0 : ℚ) - (image_height_tight : ℚ)) / 2)
        (pxmin, pxmax, pymin + delta, pymax + delta, A.width.getD 0, A.height.getD 0)
      else
        (pxmin, pxmax, pymin, pymax, A.width.getD 0, A.height.getD 0)
    else
      (pxmin, pxmax, pymin, pymax,
        A.width.getD image_width_tight, A.height.getD image_height_tight)
  { scale := scale
    image_width := centered.2.2.2.2.1
    image_height := centered.2.2.2.2.2
    pxmin := centered.1 + A.offset_x
    pxmax := centered.2.1 + A.offset_x
    pymin := centered.2.2.1 + A.offset_y
    pymax := centered.2.2.2.1 + A.offset_y
    vxmin := vxmin
    vxmax := vxmax
    vymin := vymin
    vymax := vymax }

/-- State of the `map_to_size` cache, instrumented with a count of how many
times the sizing computation has been executed. -/
structure SizeState where
  map_to_size : String → Option SizeInfo
  computes : ℕ

/-- Embedding of the `map_to_size` lookup at the top of `draw_map`
(lines 230-235 and 320-322): reuse the stored tuple when the map name has
been seen, otherwise run the sizing computation and store its result. -/
def draw_map_size (trig : ℚ → ℚ × ℚ → ℚ × ℚ) (A : SizeArgs)
    (vertexes : List (ℚ × ℚ)) (name : String) (s : SizeState) :
    SizeInfo × SizeState :=
  match s.map_to_size name with
  | some info => (info, s)
  | none =>
    let info := compute_size trig A vertexes
    (info,
      { map_to_size := fun n => if n = name then some info else s.map_to_size n,
        computes := s.computes + 1 })

/-- C3: the sizing computation runs at most once per map name.  After any
render request for a map name, every later request for the same name — even
with different arguments or vertices — returns the identical stored tuple
and leaves the state (including the execution counter) untouched. -/
theorem draw_map_size_once (trig trig' : ℚ → ℚ × ℚ → ℚ × ℚ) (A A' : SizeArgs)
    (vertexes vertexes' : List (ℚ × ℚ)) (name : String) (s : SizeState) :
    draw_map_size trig' A' vertexes' name (draw_map_size trig A vertexes name s).2 =
      ((draw_map_size trig A vertexes name s).1,
       (draw_map_size trig A vertexes name s).2) := by
  cases h : s.map_to_size name with
  | some info => simp [draw_map_size, h]
  | none => simp [draw_map_size, h]

/-- RGB color triple (channels 0..255). -/
structure RGBc where
  r : ℕ
  g : ℕ
  b : ℕ
deriving DecidableEq

/-- Sector record: the fields read by edge classification. -/
structure SectorD where
  type : ℤ
  tag : ℤ
deriving DecidableEq

/-- Entry of the line-type precedence list `lt_prec`: a parsed sector type
number (stored as a plain int by `parse_colors`), the special `sector_tag`
marker, or an edge attribute name tested with `getattr`. -/
inductive LineType where
  | sec (n : ℤ)
  | sector_tag
  | flag (name : String)
deriving DecidableEq

/-- Linedef record: the two sidedef ids (`-1` when absent) and the boolean
edge attributes reachable by `getattr`. -/
structure Linedef where
  front : ℤ
  back : ℤ
  attrs : String → Bool

/-- Embedding of the sector resolution in `draw_map` (lines 408-411): map
the front and back sidedef ids, when not `-1`, through the sidedef records
to sectors.  Out-of-range ids, which would raise in the source, fall back to
a zero sector. -/
def line_sectors (sidedefs : List ℤ) (sectors : List SectorD) (line : Linedef) :
    List SectorD :=
  (([line.front, line.back].filter (fun sd => sd ≠ -1)).map
    (fun sd => sectors.getD (sidedefs.getD sd.toNat 0).toNat ⟨0, 0⟩))

/-- Test of one precedence rule against one edge (lines 407-419): a sector
rule matches when either adjoining sector has the given type number, the
`sector_tag` rule when either has a nonzero tag, and a flag rule when the
edge carries the attribute. -/
def lt_matches (sidedefs : List ℤ) (sectors : List SectorD) (line : Linedef) :
    LineType → Bool
  | LineType.sec n => (line_sectors sidedefs sectors line).any (fun s => s.type = n)
  | LineType.sector_tag => (line_sectors sidedefs sectors line).any (fun s => s.tag ≠ 0)
  | LineType.flag f => line.attrs f

/-- Embedding of the classification loop of `draw_map` (lines 403-421):
starting from the default color with no emphasis, walk the precedence list
in order and return the first matching rule's `(color, emphasis)` pair. -/
def classify (lt_to_color : LineType → RGBc × Bool) (line_default_color : RGBc)
    (sidedefs : List ℤ) (sectors : List SectorD) (line : Linedef) :
    List LineType → RGBc × Bool
  | [] => (line_default_color, false)
  | lt :: rest =>
    if lt_matches sidedefs sectors line lt then lt_to_color lt
    else classify lt_to_color line_default_color sidedefs sectors line rest

/-- C5: classification takes the first matching rule in precedence-list
order, falls back to the default color with no emphasis when nothing
matches, and is therefore order-sensitive: when two rules both match an
edge, `[a, b]` yields a's assignment and `[b, a]` yields b's. -/
theorem classify_first_match (lt_to_color : LineType → RGBc × Bool)
    (line_default_color : RGBc) (sidedefs : List ℤ) (sectors : List SectorD)
    (line : Linedef) (a b : LineType) (rest prec : List LineType) :
    ((∀ lt ∈ prec, lt_matches sidedefs sectors line lt = false) →
      classify lt_to_color line_default_color sidedefs sectors line prec =
        (line_default_color, false))
    ∧ (lt_matches sidedefs sectors line a = true →
      classify lt_to_color line_default_color sidedefs sectors line (a :: rest) =
        lt_to_color a)
    ∧ (lt_matches sidedefs sectors line a = true →
       lt_matches sidedefs sectors line b = true →
      classify lt_to_color line_default_color sidedefs sectors line [a, b] =
          lt_to_color a
        ∧ classify lt_to_color line_default_color sidedefs sectors line [b, a] =
          lt_to_color b) := by
  refine ⟨?_, ?_, ?_⟩
  · intro hnone
    induction prec with
    | nil => rfl
    | cons lt rest ih =>
      have h1 := hnone lt (List.mem_cons_self lt rest)
      have h2 := fun x hx => hnone x (List.mem_cons_of_mem lt hx)
      simp [classify, h1, ih h2]
  · intro ha
    simp [classify, ha]
  · intro ha hb
    constructor <;> simp [classify, ha, hb]

/-- Witness for C5: a two-sided secret edge matched by both a `two_sided`
flag rule and a `sector_tag` rule. -/
theorem classify_first_match_witness :
    classify (fun lt => if lt = LineType.flag "two_sided" then (⟨128, 128, 128⟩, false)
      else (⟨255, 0, 0⟩, true)) ⟨255, 255, 255⟩ [0] [⟨9, 1⟩]
      ⟨0, -1, fun f => f = "two_sided"⟩
      [LineType.flag "two_sided", LineType.sector_tag] = (⟨128, 128, 128⟩, false)
    ∧ classify (fun lt => if lt = LineType.flag "two_sided" then (⟨128, 128, 128⟩, false)
      else (⟨255, 0, 0⟩, true)) ⟨255, 255, 255⟩ [0] [⟨9, 1⟩]
      ⟨0, -1, fun f => f = "two_sided"⟩
      [LineType.sector_tag, LineType.flag "two_sided"] = (⟨255, 0, 0⟩, true) := by
  have h := (classify_first_match
    (fun lt => if lt = LineType.flag "two_sided" then (⟨128, 128, 128⟩, false)
      else (⟨255, 0, 0⟩, true)) ⟨255, 255, 255⟩ [0] [⟨9, 1⟩]
    ⟨0, -1, fun f => f = "two_sided"⟩
    (LineType.flag "two_sided") LineType.sector_tag [] []).2.2
    (by decide) (by decide)
  exact ⟨by simpa using h.1, by simpa using h.2⟩

/-- External raster primitives used by the sprite pipeline: querying a
bitmap's size and rescaling it (PIL `Image.size` / `Image.resize`). -/
structure ImgOps (Img : Type) where
  size : Img → ℤ × ℤ
  resize : Img → ℤ → ℤ → Img

/-- Sprite caches shared across maps: `tt_to_si` maps a thing type to its
bitmap scaled for the current map (an entry may be present and `none`), and
`tt_to_usi` holds the unscaled bitmaps.  `derives` counts executions of the
derivation path of `get_thing_image` (frame lookup, bitmap load, rescale). -/
structure ThingCaches (Img : Type) where
  tt_to_si : ℕ → Option (Option Img)
  tt_to_usi : ℕ → Option (Option Img)
  derives : ℕ

/-- Embedding of `get_frame` (lines 719-736): the first frame name at or
after `sprite` in the sorted frame catalog, rejected when its first four
characters do not match the requested name. -/
def get_frame (frames : List String) (sprite : String) : Option String :=
  if frames.length = 0 then none
  else
    let i := frames.findIdx (fun f => str_le sprite f)
    if frames.length ≤ i then none
    else
      let frame := frames.getD i ""
      if sprite.take 4 ≠ frame.take 4 then none
      else some frame

/-- Embedding of `get_thing_image` (lines 749-790): return the cached scaled
bitmap when present (a `None` entry included); otherwise obtain the unscaled
bitmap (from its cache, or by descriptor lookup, frame search and load),
rescale it by `thing_scale * scale` rounding each dimension, collapse to
`none` when either dimension rounds to zero, store and return the result. -/
def get_thing_image (ops : ImgOps Img) (iwad_present : Bool)
    (sprites : String → Option Img) (frames : List String)
    (tt_to_info : ℕ → Option (String × ℤ × String))
    (thing_scale : ℚ) (scale : ℚ)
    (st : ThingCaches Img) (thing_type : ℕ) : Option Img × ThingCaches Img :=
  match st.tt_to_si thing_type with
  | some si => (si, st)
  | none =>
    let usi_step : Option Img × ThingCaches Img :=
      match st.tt_to_usi thing_type with
      | some usi => (usi, st)
      | none =>
        let usi : Option Img :=
          if iwad_present then
            match tt_to_info thing_type with
            | some info =>
              match get_frame frames info.2.2 with
              | some frame => sprites frame
              | none => none
            | none => none
          else none
        (usi, { st with tt_to_usi := fun t => if t = thing_type then some usi else st.tt_to_usi t })
    let unscaled := usi_step.1
    let st1 := usi_step.2
    let scaled : Option Img :=
      match unscaled with
      | some u =>
        let ts := thing_scale * scale
        let new_width := py_int (ts * ((ops.size u).1 : ℚ) + 1/2)
        let new_height := py_int (ts * ((ops.size u).2 : ℚ) + 1/2)
        if new_width ≠ 0 ∧ new_height ≠ 0 then some (ops.resize u new_width new_height)
        else none
      | none => none
    (scaled,
      { st1 with
        tt_to_si := fun t => if t = thing_type then some scaled else st1.tt_to_si t,
        derives := st1.derives + 1 })

/-- Embedding of the scale-change invalidation in `draw_map` (lines 324-329):
`if last_scale and last_scale != scale: tt_to_si = {}` — the scaled-sprite
cache is discarded in full when the previous map's scale is truthy (not
`None` and not `0.0`) and differs from the current scale; nothing else is
touched. -/
def scale_change_invalidate (last_scale : Option ℚ) (scale : ℚ)
    (st : ThingCaches Img) : ThingCaches Img :=
  match last_scale with
  | none => st
  | some v => if v ≠ 0 ∧ v ≠ scale then { st with tt_to_si := fun _ => none } else st

/-- C7: a second request for the same thing type at the same scale, with no
intervening invalidation, returns the stored cached result without running
the derivation path and without changing the caches; a stored `none` is
returned the same way.  Moreover any immediate repeat of a request returns
the first request's result and leaves its state fixed. -/
theorem get_thing_image_cached (ops : ImgOps Img) (iwad_present : Bool)
    (sprites : String → Option Img) (frames : List String)
    (tt_to_info : ℕ → Option (String × ℤ × String))
    (thing_scale scale : ℚ) (st : ThingCaches Img) (thing_type : ℕ)
    (v : Option Img) :
    (st.tt_to_si thing_type = some v →
      get_thing_image ops iwad_present sprites frames tt_to_info thing_scale scale
        st thing_type = (v, st))
    ∧ get_thing_image ops iwad_present sprites frames tt_to_info thing_scale scale
        (get_thing_image ops iwad_present sprites frames tt_to_info thing_scale scale
          st thing_type).2 thing_type =
      ((get_thing_image ops iwad_present sprites frames tt_to_info thing_scale scale
          st thing_type).1,
       (get_thing_image ops iwad_present sprites frames tt_to_info thing_scale scale
          st thing_type).2) := by
  constructor
  · intro h
    simp [get_thing_image, h]
  · cases h : st.tt_to_si thing_type with
    | some si => simp [get_thing_image, h]
    | none =>
      cases hu : st.tt_to_usi thing_type with
      | some usi => simp [get_thing_image, h, hu]
      | none => simp [get_thing_image, h, hu]

/-- Witness for C7: a cache holding a `None` entry for type 3 returns it
unchanged. -/
theorem get_thing_image_cached_witness :
    get_thing_image ⟨fun _ => (0, 0), fun i _ _ => i⟩ false
      (fun _ => none) [] (fun _ => none) 1 1
      (⟨fun t => if t = 3 then some none else none, fun _ => none, 0⟩ : ThingCaches ℕ) 3 =
      (none, ⟨fun t => if t = 3 then some none else none, fun _ => none, 0⟩) :=
  (get_thing_image_cached ⟨fun _ => (0, 0), fun i _ _ => i⟩ false
    (fun _ => none) [] (fun _ => none) 1 1
    (⟨fun t => if t = 3 then some none else none, fun _ => none, 0⟩ : ThingCaches ℕ)
    3 none).1 (by simp)

/-- C6 (counterexample): the claim that any scale change discards the
scaled-sprite cache fails when the preceding render's scale was `0.0`: the
guard `if last_scale and last_scale != scale` treats a zero last scale as
falsy (a zero scale is reachable, e.g. `--scale 0`, or a width equal to
twice the margin), so rendering next at scale 1 keeps the stale entry. -/
theorem scale_change_invalidate_zero_kept :
    (scale_change_invalidate (some 0) 1
      (⟨fun t => if t = 1 then some none else none, fun _ => none, 0⟩ : ThingCaches ℕ)).tt_to_si 1
      = some none
    ∧ ¬ (∀ t, (scale_change_invalidate (some 0) 1
      (⟨fun t => if t = 1 then some none else none, fun _ => none, 0⟩ : ThingCaches ℕ)).tt_to_si t
      = none) := by
  have h : (scale_change_invalidate (some 0) 1
      (⟨fun t => if t = 1 then some none else none, fun _ => none, 0⟩ : ThingCaches ℕ)).tt_to_si 1
      = some none := by
    simp [scale_change_invalidate]
  exact ⟨h, fun hall => by simpa [h] using hall 1⟩

/-- C6 (amended): whenever the immediately preceding render's scale is
nonzero and differs from the active scale, the entire scaled-sprite cache is
discarded wholesale while the unscaled-sprite cache is untouched; after the
wipe, the next request for any thing type runs the derivation path again
(the derivation counter increases) instead of reusing a cached entry. -/
theorem scale_change_invalidate_nonzero (last_scale scale : ℚ)
    (st : ThingCaches Img) (h0 : last_scale ≠ 0) (hne : last_scale ≠ scale) :
    (scale_change_invalidate (some last_scale) scale st).tt_to_si = (fun _ => none)
    ∧ (scale_change_invalidate (some last_scale) scale st).tt_to_usi = st.tt_to_usi
    ∧ (scale_change_invalidate (some last_scale) scale st).derives = st.derives
    ∧ ∀ (ops : ImgOps Img) (iwad_present : Bool) (sprites : String → Option Img)
        (frames : List String) (tt_to_info : ℕ → Option (String × ℤ × String))
        (thing_scale : ℚ) (thing_type : ℕ),
        ((get_thing_image ops iwad_present sprites frames tt_to_info thing_scale scale
          (scale_change_invalidate (some last_scale) scale st) thing_type).2).derives =
          st.derives + 1 := by
  have hcl : scale_change_invalidate (some last_scale) scale st =
      { st with tt_to_si := fun _ => none } := by
    simp [scale_change_invalidate, h0, hne]
  refine ⟨by rw [hcl], by rw [hcl], by rw [hcl], ?_⟩
  intro ops iwad_present sprites frames tt_to_info thing_scale thing_type
  rw [hcl]
  cases hu : st.tt_to_usi thing_type with
  | some usi => simp [get_thing_image, hu]
  | none => simp [get_thing_image, hu]

/-- Witness for C6 (amended) at scales 2 then 1 with a previously cached
entry for type 5. -/
theorem scale_change_invalidate_nonzero_witness :
    (scale_change_invalidate (some 2) 1
      (⟨fun t => if t = 5 then some (some 9) else none, fun _ => none, 0⟩ :
        ThingCaches ℕ)).tt_to_si
      = (fun _ => none) :=
  (scale_change_invalidate_nonzero 2 1
    (⟨fun t => if t = 5 then some (some 9) else none, fun _ => none, 0⟩ : ThingCaches ℕ)
    (by norm_num) (by norm_num)).1

/-- Channel-wise bitwise xor of two colors (`color_array[c] ^= icolor[c]`). -/
def xor_color (a b : RGBc) : RGBc := ⟨a.r ^^^ b.r, a.g ^^^ b.g, a.b ^^^ b.b⟩

/-- Embedding of the palette spacing factor of `create_colors_image`
(lines 105-108): stretch revision indices over the configured color list
when there are fewer revisions than colors. -/
def iscale_q (icount ncolors : ℕ) : ℚ :=
  if icount < ncolors then ((ncolors : ℚ) - 1) / ((icount : ℚ) - 1) else 1

/-- Palette index for revision `inum` (`int(iscale * inum + 0.5) %
len(colors_values)`, lines 112 and 153-154). -/
def cnum (icount ncolors inum : ℕ) : ℕ :=
  (py_int (iscale_q icount ncolors * inum + 1/2)).toNat % ncolors

/-- Palette-assigned color of revision `inum` out of `icount`
(`colors_values[...]`). -/
def palette_color (colors : List RGBc) (icount inum : ℕ) : RGBc :=
  colors.getD (cnum icount colors.length inum) ⟨0, 0, 0⟩

/-- Embedding of the inner revision loop of `create_colors_image`
(lines 145-162): walk the per-revision on/off mask, take the first "on"
revision's palette color, and xor in each further "on" revision's palette
color. -/
def colors_fold (pal : ℕ → RGBc) : List Bool → ℕ → Bool → RGBc → RGBc
  | [], _, _, acc => acc
  | o :: rest, inum, on_seen, acc =>
    if o then
      colors_fold pal rest (inum + 1) true
        (if on_seen then xor_color acc (pal inum) else pal inum)
    else colors_fold pal rest (inum + 1) on_seen acc

/-- Embedding of the per-pixel body of `create_colors_image`
(lines 134-164): threshold each revision's greyscale value, emit the marker
color (bw mode) or the base image's pixel when all revisions agree, and
otherwise combine the "on" revisions' palette colors with xor. -/
def create_colors_pixel (thresh : ℕ) (is_bw : Bool)
    (on_color off_color base_pixel : RGBc) (colors : List RGBc)
    (greys : List ℕ) : RGBc :=
  let icount := greys.length
  let ons := greys.map (fun p => decide (thresh ≤ p))
  if ons = List.replicate icount true then
    if is_bw then on_color else base_pixel
  else if ons = List.replicate icount false then
    if is_bw then off_color else base_pixel
  else
    colors_fold (fun inum => palette_color colors icount inum) ons 0 false ⟨0, 0, 0⟩

theorem colors_fold_nil (pal : ℕ → RGBc) (inum : ℕ) (seen : Bool) (acc : RGBc) :
    colors_fold pal [] inum seen acc = acc := rfl

theorem colors_fold_cons (pal : ℕ → RGBc) (o : Bool) (rest : List Bool)
    (inum : ℕ) (seen : Bool) (acc : RGBc) :
    colors_fold pal (o :: rest) inum seen acc =
      if o then colors_fold pal rest (inum + 1) true
        (if seen then xor_color acc (pal inum) else pal inum)
      else colors_fold pal rest (inum + 1) seen acc := rfl

theorem colors_fold_false_prepend (pal : ℕ → RGBc) (n : ℕ) (rest : List Bool)
    (k : ℕ) (seen : Bool) (acc : RGBc) :
    colors_fold pal (List.replicate n false ++ rest) k seen acc =
      colors_fold pal rest (k + n) seen acc := by
  induction n generalizing k with
  | zero => simp
  | succ m ih =>
    rw [List.replicate_succ, List.cons_append, colors_fold_cons]
    simp only [if_neg (by simp : ¬(false = true))]
    rw [ih (k + 1)]
    congr 1
    omega

theorem colors_fold_all_false (pal : ℕ → RGBc) (n k : ℕ) (seen : Bool) (acc : RGBc) :
    colors_fold pal (List.replicate n false) k seen acc = acc := by
  have h := colors_fold_false_prepend pal n [] k seen acc
  simpa [colors_fold_nil] using h

theorem colors_fold_one_on (pal : ℕ → RGBc) (i m : ℕ) (acc : RGBc) :
    colors_fold pal (List.replicate i false ++ true :: List.replicate m false)
      0 false acc = pal i := by
  rw [colors_fold_false_prepend, colors_fold_cons]
  simp [colors_fold_all_false]

theorem colors_fold_two_on (pal : ℕ → RGBc) (i m k : ℕ) (acc : RGBc) :
    colors_fold pal (List.replicate i false ++ true ::
      (List.replicate m false ++ true :: List.replicate k false)) 0 false acc =
      xor_color (pal i) (pal (i + 1 + m)) := by
  rw [colors_fold_false_prepend, colors_fold_cons]
  simp only [if_pos rfl, if_neg (by simp : ¬(false = true))]
  rw [colors_fold_false_prepend, colors_fold_cons]
  simp [colors_fold_all_false]

theorem ne_replicate_true_of_false_mem (l : List Bool) (n : ℕ) (h : false ∈ l) :
    l ≠ List.replicate n true := by
  intro he
  rw [List.eq_replicate_iff] at he
  exact absurd (he.2 false h) (by simp)

theorem ne_replicate_false_of_true_mem (l : List Bool) (n : ℕ) (h : true ∈ l) :
    l ≠ List.replicate n false := by
  intro he
  rw [List.eq_replicate_iff] at he
  exact absurd (he.2 true h) (by simp)

/-- C4: per-pixel cases of the color-composite diff, with the branch guards
evaluated in source order.  When every revision's thresholded mask is on,
the pixel is the configured all-on marker color in bw mode and the base
image's pixel otherwise; when exactly one revision (index `i`) is on, the
pixel is that revision's palette-assigned color; when exactly two revisions
(indices `i` and `i + 1 + m`) are on and at least one is off, the pixel is
the channel-wise xor of their two palette-assigned colors. -/
theorem create_colors_pixel_cases (thresh : ℕ) (is_bw : Bool)
    (on_color off_color base_pixel : RGBc) (colors : List RGBc) :
    (∀ greys : List ℕ, (∀ g ∈ greys, thresh ≤ g) →
      create_colors_pixel thresh is_bw on_color off_color base_pixel colors greys =
        if is_bw then on_color else base_pixel)
    ∧ (∀ (i m : ℕ) (greys : List ℕ),
        greys.map (fun p => decide (thresh ≤ p)) =
          List.replicate i false ++ true :: List.replicate m false →
        0 < i + m →
        create_colors_pixel thresh is_bw on_color off_color base_pixel colors greys =
          palette_color colors greys.length i)
    ∧ (∀ (i m k : ℕ) (greys : List ℕ),
        greys.map (fun p => decide (thresh ≤ p)) =
          List.replicate i false ++ true ::
            (List.replicate m false ++ true :: List.replicate k false) →
        0 < i + m + k →
        create_colors_pixel thresh is_bw on_color off_color base_pixel colors greys =
          xor_color (palette_color colors greys.length i)
            (palette_color colors greys.length (i + 1 + m))) := by
  refine ⟨?_, ?_, ?_⟩
  · intro greys hall
    have hons : greys.map (fun p => decide (thresh ≤ p)) =
        List.replicate greys.length true := by
      rw [List.eq_replicate_iff]
      refine ⟨by simp, ?_⟩
      intro b hb
      rw [List.mem_map] at hb
      obtain ⟨g, hg, hbg⟩ := hb
      rw [← hbg]
      simpa using hall g hg
    simp [create_colors_pixel, hons]
  · intro i m greys h hpos
    have hfalse : (false : Bool) ∈
        List.replicate i false ++ true :: List.replicate m false := by
      rcases (by omega : 0 < i ∨ 0 < m) with hi | hm
      · exact List.mem_append_left _ (List.mem_replicate.mpr ⟨by omega, rfl⟩)
      · exact List.mem_append_right _
          (List.mem_cons_of_mem _ (List.mem_replicate.mpr ⟨by omega, rfl⟩))
    have htrue : (true : Bool) ∈
        List.replicate i false ++ true :: List.replicate m false :=
      List.mem_append_right _ (List.mem_cons_self _ _)
    have hne_t := ne_replicate_true_of_false_mem _ greys.length (h ▸ hfalse)
    have hne_f := ne_replicate_false_of_true_mem _ greys.length (h ▸ htrue)
    simp only [create_colors_pixel]
    rw [if_neg hne_t, if_neg hne_f, h, colors_fold_one_on]
  · intro i m k greys h hpos
    have hfalse : (false : Bool) ∈ List.replicate i false ++ true ::
        (List.replicate m false ++ true :: List.replicate k false) := by
      rcases (by omega : 0 < i ∨ 0 < m ∨ 0 < k) with hi | hm | hk
      · exact List.mem_append_left _ (List.mem_replicate.mpr ⟨by omega, rfl⟩)
      · exact List.mem_append_right _ (List.mem_cons_of_mem _
          (List.mem_append_left _ (List.mem_replicate.mpr ⟨by omega, rfl⟩)))
      · exact List.mem_append_right _ (List.mem_cons_of_mem _
          (List.mem_append_right _ (List.mem_cons_of_mem _
            (List.mem_replicate.mpr ⟨by omega, rfl⟩))))
    have htrue : (true : Bool) ∈ List.replicate i false ++ true ::
        (List.replicate m false ++ true :: List.replicate k false) :=
      List.mem_append_right _ (List.mem_cons_self _ _)
    have hne_t := ne_replicate_true_of_false_mem _ greys.length (h ▸ hfalse)
    have hne_f := ne_replicate_false_of_true_mem _ greys.length (h ▸ htrue)
    simp only [create_colors_pixel]
    rw [if_neg hne_t, if_neg hne_f, h, colors_fold_two_on]

/-- Witness for C4 with three revisions of which the first and third are on,
threshold 30 and the default three-color palette. -/
theorem create_colors_pixel_cases_witness :
    create_colors_pixel 30 true ⟨255, 255, 255⟩ ⟨0, 0, 0⟩ ⟨7, 7, 7⟩
      [⟨255, 0, 0⟩, ⟨0, 255, 0⟩, ⟨0, 0, 255⟩] [100, 0, 200] =
      xor_color (palette_color [⟨255, 0, 0⟩, ⟨0, 255, 0⟩, ⟨0, 0, 255⟩] 3 0)
        (palette_color [⟨255, 0, 0⟩, ⟨0, 255, 0⟩, ⟨0, 0, 255⟩] 3 2) :=
  (create_colors_pixel_cases 30 true ⟨255, 255, 255⟩ ⟨0, 0, 0⟩ ⟨7, 7, 7⟩
    [⟨255, 0, 0⟩, ⟨0, 255, 0⟩, ⟨0, 0, 255⟩]).2.2 0 1 0 [100, 0, 200]
    (by decide) (by decide)

/-- RGBA color quadruple. -/
structure RGBA where
  r : ℕ
  g : ℕ
  b : ℕ
  a : ℕ
deriving DecidableEq

/-- Acceptance test of the rejection loop in `get_circle_color`
(lines 712-714): the channel sum must be at least 128 and at most
`3 * 255 - 128`, keeping colors away from black and white. -/
def color_ok (c : ℕ × ℕ × ℕ) : Prop :=
  128 ≤ c.1 + c.2.1 + c.2.2 ∧ c.1 + c.2.1 + c.2.2 ≤ 3 * 255 - 128

instance (c : ℕ × ℕ × ℕ) : Decidable (color_ok c) := by
  unfold color_ok; infer_instance

/-- Seed fed to `random.seed` for a thing type (line 701):
`(args.random_seed << 16) + thing_type`. -/
def circle_seed (random_seed : ℤ) (thing_type : ℕ) : ℤ :=
  random_seed * 2 ^ 16 + thing_type

/-- Embedding of the generation loop of `get_circle_color` (lines 698-715)
for `--circle-color random`.  The stdlib Mersenne Twister is external: `rng`
maps a seed and a draw attempt to the triple of `random.randint(0, 255)`
values of that attempt, and the loop keeps the first attempt whose channel
sum passes `color_ok`; the alpha channel is the configured circle alpha.
The proof argument `h` models termination of the `while True` loop. -/
def circle_color_random (rng : ℤ → ℕ → ℕ × ℕ × ℕ) (random_seed : ℤ)
    (circle_alpha : ℕ) (thing_type : ℕ)
    (h : ∃ i, color_ok (rng (circle_seed random_seed thing_type) i)) : RGBA :=
  let t := rng (circle_seed random_seed thing_type) (Nat.find h)
  ⟨t.1, t.2.1, t.2.2, circle_alpha⟩

/-- Embedding of `get_circle_color` (lines 691-716) in random mode: return
the memoised color for the thing type, or generate, store and return it. -/
def get_circle_color (rng : ℤ → ℕ → ℕ × ℕ × ℕ) (random_seed : ℤ)
    (circle_alpha : ℕ) (tt_to_color : ℕ → Option RGBA) (thing_type : ℕ)
    (h : ∃ i, color_ok (rng (circle_seed random_seed thing_type) i)) :
    RGBA × (ℕ → Option RGBA) :=
  match tt_to_color thing_type with
  | some c => (c, tt_to_color)
  | none =>
    let c := circle_color_random rng random_seed circle_alpha thing_type h
    (c, fun t => if t = thing_type then some c else tt_to_color t)

/-- A `tt_to_color` cache is consistent when every stored entry equals the
color the generator would produce for that thing type. -/
def circle_cache_consistent (rng : ℤ → ℕ → ℕ × ℕ × ℕ) (random_seed : ℤ)
    (circle_alpha : ℕ) (tt_to_color : ℕ → Option RGBA) : Prop :=
  ∀ t c, tt_to_color t = some c →
    ∀ h : ∃ i, color_ok (rng (circle_seed random_seed t) i),
      c = circle_color_random rng random_seed circle_alpha t h

/-- C9: in random mode the chosen circle color is a deterministic function
of the global seed and the thing type alone — against any consistent cache
(hence in any map order, or across runs) the call returns exactly the
generator's color for `(seed, type)` and keeps the cache consistent — its
alpha channel is the configured circle alpha, and its channel sum lies in
`[128, 3*255 - 128]`. -/
theorem get_circle_color_deterministic (rng : ℤ → ℕ → ℕ × ℕ × ℕ)
    (random_seed : ℤ) (circle_alpha : ℕ) (tt_to_color : ℕ → Option RGBA)
    (thing_type : ℕ)
    (hc : circle_cache_consistent rng random_seed circle_alpha tt_to_color)
    (h : ∃ i, color_ok (rng (circle_seed random_seed thing_type) i)) :
    (get_circle_color rng random_seed circle_alpha tt_to_color thing_type h).1 =
      circle_color_random rng random_seed circle_alpha thing_type h
    ∧ circle_cache_consistent rng random_seed circle_alpha
      (get_circle_color rng random_seed circle_alpha tt_to_color thing_type h).2
    ∧ (get_circle_color rng random_seed circle_alpha tt_to_color thing_type h).1.a =
      circle_alpha
    ∧ 128 ≤ (get_circle_color rng random_seed circle_alpha tt_to_color thing_type h).1.r
        + (get_circle_color rng random_seed circle_alpha tt_to_color thing_type h).1.g
        + (get_circle_color rng random_seed circle_alpha tt_to_color thing_type h).1.b
    ∧ (get_circle_color rng random_seed circle_alpha tt_to_color thing_type h).1.r
        + (get_circle_color rng random_seed circle_alpha tt_to_color thing_type h).1.g
        + (get_circle_color rng random_seed circle_alpha tt_to_color thing_type h).1.b
        ≤ 3 * 255 - 128 := by
  have hval : (get_circle_color rng random_seed circle_alpha tt_to_color thing_type h).1 =
      circle_color_random rng random_seed circle_alpha thing_type h := by
    cases hm : tt_to_color thing_type with
    | some c => simpa [get_circle_color, hm] using hc thing_type c hm h
    | none => simp [get_circle_color, hm]
  have hsum := Nat.find_spec h
  refine ⟨hval, ?_, ?_, ?_, ?_⟩
  · cases hm : tt_to_color thing_type with
    | some c =>
      have hcache : (get_circle_color rng random_seed circle_alpha tt_to_color
          thing_type h).2 = tt_to_color := by simp [get_circle_color, hm]
      rw [hcache]
      exact hc
    | none =>
      intro t c hce h2
      by_cases ht : t = thing_type
      · subst ht
        simp [get_circle_color, hm] at hce
        exact hce.symm
      · simp only [get_circle_color, hm] at hce
        rw [if_neg ht] at hce
        exact hc t c hce h2
  · rw [hval]; rfl
  · rw [hval]; exact hsum.1
  · rw [hval]; exact hsum.2

/-- Generator used by the C9 witness. -/
def rngW : ℤ → ℕ → ℕ × ℕ × ℕ := fun _ _ => (50, 60, 70)

/-- Termination evidence for the C9 witness generator. -/
theorem rngW_ok : ∃ i, color_ok (rngW (circle_seed 0 7) i) := ⟨0, by decide⟩

/-- Witness for C9 at seed 0, thing type 7, alpha 255 and an empty cache. -/
theorem get_circle_color_deterministic_witness :
    (get_circle_color rngW 0 255 (fun _ => none) 7 rngW_ok).1.a = 255 :=
  (get_circle_color_deterministic rngW 0 255 (fun _ => none) 7
    (fun t c hce => by simp at hce) rngW_ok).2.2.1

end Wad2Image
